import Mathlib

/-!
Shallow embedding of `src/vaas/example/Data-Injection-Attack/NEP5Token.py`,
a NEP5 token ledger for the DNA blockchain VM.

Modelling decisions:
* Addresses and storage keys are byte strings, modelled as `List Nat`.
  The builtin `concat` is list append.
* The VM's key-value store (`Get`/`Put`/`Delete` on a context) is modelled as
  a partial map `List Nat → Option Int`; `Get` defaults a missing key to `0`,
  exactly as the VM does.  Presence (`some`) versus absence (`none`) is kept
  so that `Delete` and `Put k 0` are distinguishable.
* Python / DNA-VM integers are arbitrary precision, so amounts and balances
  are `Int` (they may be negative: the source compares amounts with `0`).
* `CheckWitness` is an injected oracle `List Nat → Bool`.
* Event dispatch (`RegisterAction`) is modelled by returning the list of
  events emitted by the call.
* Each handler takes the store and returns `(result, store, events)`,
  mirroring the source's sequence of store reads/writes exactly.
-/

namespace NEP5

/-- An address (opaque byte string), as in the Python source. -/
abbrev Addr := List Nat

/-- The persistent key-value store: byte-string key to integer value,
`none` meaning the key is absent. -/
abbrev Store := List Nat → Option Int

/-- The store with no keys. -/
def emptyStore : Store := fun _ => none

/-- `Get(context, key)`: read a key, defaulting to `0` when absent. -/
def Get (s : Store) (k : List Nat) : Int := (s k).getD 0

/-- `Put(context, key, v)`: write a value under a key. -/
def Put (s : Store) (k : List Nat) (v : Int) : Store :=
  fun q => if q = k then some v else s q

/-- `Delete(context, key)`: remove a key from the store. -/
def Delete (s : Store) (k : List Nat) : Store :=
  fun q => if q = k then none else s q

/-- The two event shapes dispatched by the contract
(`RegisterAction('transfer', ...)` and `RegisterAction('approval', ...)`). -/
inductive Event where
  | transfer (t_from t_to : Addr) (amount : Int)
  | approval (t_owner t_spender : Addr) (amount : Int)
deriving DecidableEq

/-- `DoTransfer(t_from, t_to, amount)` from the source: direct,
witness-authorized transfer.  Returns the boolean result, the store after
the call, and the events emitted. -/
def DoTransfer (wit : Addr → Bool) (s : Store) (t_from t_to : Addr)
    (amount : Int) : Bool × Store × List Event :=
  if amount ≤ 0 then (false, s, [])
  else if wit t_from = false then (false, s, [])
  else if t_from = t_to then (true, s, [])
  else
    let from_val := Get s t_from
    if from_val < amount then (false, s, [])
    else
      let s1 := if from_val = amount then Delete s t_from
                else Put s t_from (from_val - amount)
      let to_value := Get s1 t_to
      let s2 := Put s1 t_to (to_value + amount)
      (true, s2, [Event.transfer t_from t_to amount])

/-- `DoTransferFrom(t_from, t_to, amount)` from the source: delegated,
allowance-gated transfer.  The witness oracle is passed for interface
uniformity; the source never consults it on this path. -/
def DoTransferFrom (wit : Addr → Bool) (s : Store) (t_from t_to : Addr)
    (amount : Int) : Bool × Store × List Event :=
  if amount ≤ 0 then (false, s, [])
  else
    let allowance_key := t_from ++ t_to
    let available_to_to_addr := Get s allowance_key
    if available_to_to_addr < amount then (false, s, [])
    else
      let from_balance := Get s t_from
      if from_balance < amount then (false, s, [])
      else
        let to_balance := Get s t_to
        let new_from_balance := from_balance - amount
        let new_to_balance := to_balance + amount
        let new_allowance := available_to_to_addr - amount
        let s1 := Put s allowance_key new_allowance
        let s2 := Put s1 t_to new_to_balance
        let s3 := Put s2 t_from new_from_balance
        (true, s3, [Event.transfer t_from t_to amount])

/-- `DoApprove(t_owner, t_spender, amount)` from the source: cumulative,
balance-capped approval. -/
def DoApprove (wit : Addr → Bool) (s : Store) (t_owner t_spender : Addr)
    (amount : Int) : Bool × Store × List Event :=
  if wit t_owner = false then (false, s, [])
  else
    let from_balance := Get s t_owner
    if from_balance ≥ amount then
      let approval_key := t_owner ++ t_spender
      let current_approved_balance := Get s approval_key
      let new_approved_balance := current_approved_balance + amount
      let s1 := Put s approval_key new_approved_balance
      (true, s1, [Event.approval t_owner t_spender amount])
    else (false, s, [])

/-- `GetAllowance(t_owner, t_spender)` from the source: pure read of the
allowance under the concatenated key, no store writes. -/
def GetAllowance (s : Store) (t_owner t_spender : Addr) : Int :=
  Get s (t_owner ++ t_spender)

/-- Sum of the balances of a finite set of addresses, given as a list. -/
def sumBalances (addrs : List Addr) (s : Store) : Int :=
  (addrs.map fun a => Get s a).sum

/-! ### Store lemmas -/

theorem Get_Put (s : Store) (k : List Nat) (v : Int) (q : List Nat) :
    Get (Put s k v) q = if q = k then v else Get s q := by
  unfold Get Put
  split <;> rfl

theorem Get_Delete (s : Store) (k : List Nat) (q : List Nat) :
    Get (Delete s k) q = if q = k then 0 else Get s q := by
  unfold Get Delete
  split <;> rfl

theorem Get_emptyStore (q : List Nat) : Get emptyStore q = 0 := rfl

theorem sumBalances_cons (a : Addr) (addrs : List Addr) (s : Store) :
    sumBalances (a :: addrs) s = Get s a + sumBalances addrs s := by
  simp [sumBalances]

theorem sumBalances_congr (addrs : List Addr) (s1 s2 : Store)
    (h : ∀ a ∈ addrs, Get s1 a = Get s2 a) :
    sumBalances addrs s1 = sumBalances addrs s2 := by
  induction addrs with
  | nil => rfl
  | cons a rest ih =>
      rw [sumBalances_cons, sumBalances_cons, h a (List.mem_cons_self a rest),
        ih fun b hb => h b (List.mem_cons_of_mem a hb)]

theorem sumBalances_Put_not_mem (addrs : List Addr) (s : Store)
    (k : List Nat) (v : Int) (hk : k ∉ addrs) :
    sumBalances addrs (Put s k v) = sumBalances addrs s := by
  refine sumBalances_congr addrs _ s fun a ha => ?_
  rw [Get_Put, if_neg]
  exact fun h => hk (h ▸ ha)

theorem sumBalances_Delete_not_mem (addrs : List Addr) (s : Store)
    (k : List Nat) (hk : k ∉ addrs) :
    sumBalances addrs (Delete s k) = sumBalances addrs s := by
  refine sumBalances_congr addrs _ s fun a ha => ?_
  rw [Get_Delete, if_neg]
  exact fun h => hk (h ▸ ha)

theorem sumBalances_Put_mem (addrs : List Addr) (s : Store)
    (k : List Nat) (v : Int) (hnd : addrs.Nodup) (hk : k ∈ addrs) :
    sumBalances addrs (Put s k v) = sumBalances addrs s + (v - Get s k) := by
  induction addrs with
  | nil => cases hk
  | cons a rest ih =>
      rw [sumBalances_cons, sumBalances_cons]
      rcases List.mem_cons.mp hk with h | h
      · subst h
        rw [Get_Put, if_pos rfl,
          sumBalances_Put_not_mem rest s k v (List.nodup_cons.mp hnd).1]
        ring
      · have hak : a ≠ k := fun he => (List.nodup_cons.mp hnd).1 (he.symm ▸ h)
        rw [Get_Put, if_neg hak, ih (List.nodup_cons.mp hnd).2 h]
        ring

theorem sumBalances_Delete_mem (addrs : List Addr) (s : Store)
    (k : List Nat) (hnd : addrs.Nodup) (hk : k ∈ addrs) :
    sumBalances addrs (Delete s k) = sumBalances addrs s - Get s k := by
  induction addrs with
  | nil => cases hk
  | cons a rest ih =>
      rw [sumBalances_cons, sumBalances_cons]
      rcases List.mem_cons.mp hk with h | h
      · subst h
        rw [Get_Delete, if_pos rfl,
          sumBalances_Delete_not_mem rest s k (List.nodup_cons.mp hnd).1]
        ring
      · have hak : a ≠ k := fun he => (List.nodup_cons.mp hnd).1 (he.symm ▸ h)
        rw [Get_Delete, if_neg hak, ih (List.nodup_cons.mp hnd).2 h]
        ring

/-! ### Branch characterizations of the handlers -/

theorem DoTransfer_amount_nonpos (wit : Addr → Bool) (s : Store) (f t : Addr)
    (a : Int) (h1 : a ≤ 0) : DoTransfer wit s f t a = (false, s, []) := by
  simp only [DoTransfer, if_pos h1]

theorem DoTransfer_no_witness (wit : Addr → Bool) (s : Store) (f t : Addr)
    (a : Int) (h1 : ¬ a ≤ 0) (h2 : wit f = false) :
    DoTransfer wit s f t a = (false, s, []) := by
  simp only [DoTransfer, if_neg h1, if_pos h2]

theorem DoTransfer_self (wit : Addr → Bool) (s : Store) (f t : Addr)
    (a : Int) (h1 : ¬ a ≤ 0) (h2 : ¬ wit f = false) (he : f = t) :
    DoTransfer wit s f t a = (true, s, []) := by
  simp only [DoTransfer, if_neg h1, if_neg h2, if_pos he]

theorem DoTransfer_insufficient (wit : Addr → Bool) (s : Store) (f t : Addr)
    (a : Int) (h1 : ¬ a ≤ 0) (h2 : ¬ wit f = false) (hne : f ≠ t)
    (h3 : Get s f < a) : DoTransfer wit s f t a = (false, s, []) := by
  simp only [DoTransfer, if_neg h1, if_neg h2, if_neg hne, if_pos h3]

theorem DoTransfer_success_eq (wit : Addr → Bool) (s : Store) (f t : Addr)
    (a : Int) (h1 : ¬ a ≤ 0) (h2 : ¬ wit f = false) (hne : f ≠ t)
    (h3 : ¬ Get s f < a) :
    DoTransfer wit s f t a =
      (true,
        Put (if Get s f = a then Delete s f else Put s f (Get s f - a)) t
          (Get (if Get s f = a then Delete s f else Put s f (Get s f - a)) t + a),
        [Event.transfer f t a]) := by
  simp only [DoTransfer, if_neg h1, if_neg h2, if_neg hne, if_neg h3]

theorem DoTransfer_true_elim (wit : Addr → Bool) (s : Store) (f t : Addr)
    (a : Int) (hne : f ≠ t) (hs : (DoTransfer wit s f t a).1 = true) :
    ¬ a ≤ 0 ∧ ¬ wit f = false ∧ ¬ Get s f < a := by
  by_cases h1 : a ≤ 0
  · rw [DoTransfer_amount_nonpos wit s f t a h1] at hs
    cases hs
  by_cases h2 : wit f = false
  · rw [DoTransfer_no_witness wit s f t a h1 h2] at hs
    cases hs
  by_cases h3 : Get s f < a
  · rw [DoTransfer_insufficient wit s f t a h1 h2 hne h3] at hs
    cases hs
  exact ⟨h1, h2, h3⟩

theorem DoTransferFrom_amount_nonpos (wit : Addr → Bool) (s : Store)
    (f t : Addr) (a : Int) (h1 : a ≤ 0) :
    DoTransferFrom wit s f t a = (false, s, []) := by
  simp only [DoTransferFrom, if_pos h1]

theorem DoTransferFrom_insufficient_allowance (wit : Addr → Bool) (s : Store)
    (f t : Addr) (a : Int) (h1 : ¬ a ≤ 0) (h2 : Get s (f ++ t) < a) :
    DoTransferFrom wit s f t a = (false, s, []) := by
  simp only [DoTransferFrom, if_neg h1, if_pos h2]

theorem DoTransferFrom_insufficient_balance (wit : Addr → Bool) (s : Store)
    (f t : Addr) (a : Int) (h1 : ¬ a ≤ 0) (h2 : ¬ Get s (f ++ t) < a)
    (h3 : Get s f < a) : DoTransferFrom wit s f t a = (false, s, []) := by
  simp only [DoTransferFrom, if_neg h1, if_neg h2, if_pos h3]

theorem DoTransferFrom_success_eq (wit : Addr → Bool) (s : Store)
    (f t : Addr) (a : Int) (h1 : ¬ a ≤ 0) (h2 : ¬ Get s (f ++ t) < a)
    (h3 : ¬ Get s f < a) :
    DoTransferFrom wit s f t a =
      (true,
        Put (Put (Put s (f ++ t) (Get s (f ++ t) - a)) t (Get s t + a)) f
          (Get s f - a),
        [Event.transfer f t a]) := by
  simp only [DoTransferFrom, if_neg h1, if_neg h2, if_neg h3]

theorem DoTransferFrom_true_elim (wit : Addr → Bool) (s : Store)
    (f t : Addr) (a : Int) (hs : (DoTransferFrom wit s f t a).1 = true) :
    ¬ a ≤ 0 ∧ ¬ Get s (f ++ t) < a ∧ ¬ Get s f < a := by
  by_cases h1 : a ≤ 0
  · rw [DoTransferFrom_amount_nonpos wit s f t a h1] at hs
    cases hs
  by_cases h2 : Get s (f ++ t) < a
  · rw [DoTransferFrom_insufficient_allowance wit s f t a h1 h2] at hs
    cases hs
  by_cases h3 : Get s f < a
  · rw [DoTransferFrom_insufficient_balance wit s f t a h1 h2 h3] at hs
    cases hs
  exact ⟨h1, h2, h3⟩

theorem DoApprove_no_witness (wit : Addr → Bool) (s : Store) (o sp : Addr)
    (a : Int) (h1 : wit o = false) : DoApprove wit s o sp a = (false, s, []) := by
  simp only [DoApprove, if_pos h1]

theorem DoApprove_insufficient (wit : Addr → Bool) (s : Store) (o sp : Addr)
    (a : Int) (h1 : ¬ wit o = false) (h2 : ¬ Get s o ≥ a) :
    DoApprove wit s o sp a = (false, s, []) := by
  simp only [DoApprove, if_neg h1, if_neg h2]

theorem DoApprove_success_eq (wit : Addr → Bool) (s : Store) (o sp : Addr)
    (a : Int) (h1 : ¬ wit o = false) (h2 : Get s o ≥ a) :
    DoApprove wit s o sp a =
      (true, Put s (o ++ sp) (Get s (o ++ sp) + a),
        [Event.approval o sp a]) := by
  simp only [DoApprove, if_neg h1, if_pos h2]

theorem Put_apply (s : Store) (k : List Nat) (v : Int) (q : List Nat) :
    Put s k v q = if q = k then some v else s q := rfl

theorem Delete_apply (s : Store) (k : List Nat) (q : List Nat) :
    Delete s k q = if q = k then none else s q := rfl

/-! ### Derived facts about successful transfers -/

theorem Get_DoTransfer_to (wit : Addr → Bool) (s : Store) (f t : Addr)
    (a : Int) (hne : f ≠ t) (hs : (DoTransfer wit s f t a).1 = true) :
    Get (DoTransfer wit s f t a).2.1 t = Get s t + a := by
  obtain ⟨h1, h2, h3⟩ := DoTransfer_true_elim wit s f t a hne hs
  have htf : ¬ t = f := fun h => hne h.symm
  by_cases h4 : Get s f = a
  · simp [DoTransfer_success_eq wit s f t a h1 h2 hne h3, h4, Get_Put,
      Get_Delete, htf]
  · simp [DoTransfer_success_eq wit s f t a h1 h2 hne h3, h4, Get_Put,
      Get_Delete, htf]

theorem Get_DoTransfer_from (wit : Addr → Bool) (s : Store) (f t : Addr)
    (a : Int) (hne : f ≠ t) (hs : (DoTransfer wit s f t a).1 = true) :
    Get (DoTransfer wit s f t a).2.1 f + a = Get s f := by
  obtain ⟨h1, h2, h3⟩ := DoTransfer_true_elim wit s f t a hne hs
  by_cases h4 : Get s f = a
  · simp [DoTransfer_success_eq wit s f t a h1 h2 hne h3, h4, Get_Put,
      Get_Delete, hne]
  · simp [DoTransfer_success_eq wit s f t a h1 h2 hne h3, h4, Get_Put,
      Get_Delete, hne]

theorem sumBalances_DoTransfer (wit : Addr → Bool) (s : Store) (f t : Addr)
    (a : Int) (addrs : List Addr) (hnd : addrs.Nodup) (hf : f ∈ addrs)
    (ht : t ∈ addrs) :
    sumBalances addrs (DoTransfer wit s f t a).2.1 = sumBalances addrs s := by
  by_cases h1 : a ≤ 0
  · rw [DoTransfer_amount_nonpos wit s f t a h1]
  by_cases h2 : wit f = false
  · rw [DoTransfer_no_witness wit s f t a h1 h2]
  by_cases he : f = t
  · rw [DoTransfer_self wit s f t a h1 h2 he]
  by_cases h3 : Get s f < a
  · rw [DoTransfer_insufficient wit s f t a h1 h2 he h3]
  rw [DoTransfer_success_eq wit s f t a h1 h2 he h3]
  by_cases h4 : Get s f = a
  · rw [if_pos h4]
    show sumBalances addrs (Put (Delete s f) t (Get (Delete s f) t + a)) =
      sumBalances addrs s
    rw [sumBalances_Put_mem addrs (Delete s f) t (Get (Delete s f) t + a) hnd ht,
      sumBalances_Delete_mem addrs s f hnd hf]
    omega
  · rw [if_neg h4]
    show sumBalances addrs
        (Put (Put s f (Get s f - a)) t (Get (Put s f (Get s f - a)) t + a)) =
      sumBalances addrs s
    rw [sumBalances_Put_mem addrs (Put s f (Get s f - a)) t
        (Get (Put s f (Get s f - a)) t + a) hnd ht,
      sumBalances_Put_mem addrs s f (Get s f - a) hnd hf]
    omega

end NEP5

namespace NEP5

/-! ### Claim theorems -/

/-- C1: a successful direct transfer with `from ≠ to` debits `from` by
exactly `amount`, credits `to` by exactly `amount`, and leaves the sum of
balances over any duplicate-free address set containing `from` and `to`
unchanged. -/
theorem transfer_moves_value_and_preserves_supply (wit : Addr → Bool)
    (s : Store) (f t : Addr) (a : Int) (addrs : List Addr) (hne : f ≠ t)
    (hs : (DoTransfer wit s f t a).1 = true)
    (hnd : addrs.Nodup) (hf : f ∈ addrs) (ht : t ∈ addrs) :
    Get (DoTransfer wit s f t a).2.1 f + a = Get s f ∧
    Get (DoTransfer wit s f t a).2.1 t = Get s t + a ∧
    sumBalances addrs (DoTransfer wit s f t a).2.1 = sumBalances addrs s :=
  ⟨Get_DoTransfer_from wit s f t a hne hs,
    Get_DoTransfer_to wit s f t a hne hs,
    sumBalances_DoTransfer wit s f t a addrs hnd hf ht⟩

theorem transfer_moves_value_witness :
    (([1]:Addr) ≠ [2] ∧
      (DoTransfer (fun _ => true) (Put emptyStore [1] 100) [1] [2] 40).1 = true ∧
      ([([1]:Addr), [2]]).Nodup ∧
      ([1]:Addr) ∈ [([1]:Addr), [2]] ∧ ([2]:Addr) ∈ [([1]:Addr), [2]]) ∧
    (Get (DoTransfer (fun _ => true) (Put emptyStore [1] 100) [1] [2] 40).2.1 [1]
        + 40 = Get (Put emptyStore [1] 100) [1] ∧
      Get (DoTransfer (fun _ => true) (Put emptyStore [1] 100) [1] [2] 40).2.1 [2]
        = Get (Put emptyStore [1] 100) [2] + 40 ∧
      sumBalances [[1], [2]]
          (DoTransfer (fun _ => true) (Put emptyStore [1] 100) [1] [2] 40).2.1
        = sumBalances [[1], [2]] (Put emptyStore [1] 100)) :=
  ⟨⟨by decide, by decide, by decide, by decide, by decide⟩,
    transfer_moves_value_and_preserves_supply (fun _ => true)
      (Put emptyStore [1] 100) [1] [2] 40 [[1], [2]]
      (by decide) (by decide) (by decide) (by decide) (by decide)⟩

/-- C2 counterexample: the claim "every operation leaves the sum of all
balances unchanged" is false: a self-directed `transferFrom` changes the sum
of balances.  Concretely, with `balance([1]) = 5` and
`allowance(concat([1],[1])) = 5`, the call `transferFrom([1],[1],5)` leaves
a different balance sum over the address set `{[1]}`. -/
theorem transferFrom_self_breaks_supply :
    sumBalances [[1]]
        (DoTransferFrom (fun _ => true)
          (Put (Put emptyStore [1] 5) ([1] ++ [1]) 5) [1] [1] 5).2.1 ≠
      sumBalances [[1]] (Put (Put emptyStore [1] 5) ([1] ++ [1]) 5) := by
  decide

/-- C2 (amended): `transfer` always preserves the sum of balances over any
duplicate-free address set containing `from` and `to`; `transferFrom`
preserves it provided `from ≠ to` (and the allowance key is not itself one of
the summed addresses); `approve` preserves it (its only write is to the
allowance key, which is not a summed address); the `allowance` query performs
no store writes at all.  The original claim fails for `transferFrom` with
`from == to`. -/
theorem ops_preserve_balance_sum (wit : Addr → Bool) (s : Store)
    (f t o sp : Addr) (a b : Int) (addrs : List Addr)
    (hnd : addrs.Nodup) (hf : f ∈ addrs) (ht : t ∈ addrs) :
    sumBalances addrs (DoTransfer wit s f t a).2.1 = sumBalances addrs s ∧
    (f ≠ t → (f ++ t) ∉ addrs →
      sumBalances addrs (DoTransferFrom wit s f t a).2.1 =
        sumBalances addrs s) ∧
    ((o ++ sp) ∉ addrs →
      sumBalances addrs (DoApprove wit s o sp b).2.1 = sumBalances addrs s) := by
  refine ⟨sumBalances_DoTransfer wit s f t a addrs hnd hf ht, ?_, ?_⟩
  · intro hne hkey
    by_cases h1 : a ≤ 0
    · rw [DoTransferFrom_amount_nonpos wit s f t a h1]
    by_cases h2 : Get s (f ++ t) < a
    · rw [DoTransferFrom_insufficient_allowance wit s f t a h1 h2]
    by_cases h3 : Get s f < a
    · rw [DoTransferFrom_insufficient_balance wit s f t a h1 h2 h3]
    have hfk : f ≠ f ++ t := fun h => hkey (h ▸ hf)
    have htk : t ≠ f ++ t := fun h => hkey (h ▸ ht)
    rw [DoTransferFrom_success_eq wit s f t a h1 h2 h3]
    show sumBalances addrs
        (Put (Put (Put s (f ++ t) (Get s (f ++ t) - a)) t (Get s t + a)) f
          (Get s f - a)) = sumBalances addrs s
    rw [sumBalances_Put_mem addrs
        (Put (Put s (f ++ t) (Get s (f ++ t) - a)) t (Get s t + a)) f
        (Get s f - a) hnd hf,
      sumBalances_Put_mem addrs (Put s (f ++ t) (Get s (f ++ t) - a)) t
        (Get s t + a) hnd ht,
      sumBalances_Put_not_mem addrs s (f ++ t) (Get s (f ++ t) - a) hkey]
    simp only [Get_Put, if_neg hne, if_neg hfk, if_neg htk]
    omega
  · intro hkey
    by_cases hw : wit o = false
    · rw [DoApprove_no_witness wit s o sp b hw]
    by_cases hb : Get s o ≥ b
    · rw [DoApprove_success_eq wit s o sp b hw hb]
      exact sumBalances_Put_not_mem addrs s (o ++ sp)
        (Get s (o ++ sp) + b) hkey
    · rw [DoApprove_insufficient wit s o sp b hw hb]

theorem ops_preserve_balance_sum_witness :
    (([[1], [2]] : List Addr).Nodup ∧ ([1]:Addr) ∈ [([1]:Addr), [2]] ∧
      ([2]:Addr) ∈ [([1]:Addr), [2]]) ∧
    (sumBalances [[1], [2]]
        (DoTransfer (fun _ => true) (Put emptyStore [1] 100) [1] [2] 40).2.1 =
      sumBalances [[1], [2]] (Put emptyStore [1] 100) ∧
    sumBalances [[1], [2]]
        (DoTransferFrom (fun _ => true) (Put emptyStore [1] 100)
          [1] [2] 40).2.1 =
      sumBalances [[1], [2]] (Put emptyStore [1] 100) ∧
    sumBalances [[1], [2]]
        (DoApprove (fun _ => true) (Put emptyStore [1] 100) [1] [3] 5).2.1 =
      sumBalances [[1], [2]] (Put emptyStore [1] 100)) :=
  ⟨⟨by decide, by decide, by decide⟩,
    (ops_preserve_balance_sum (fun _ => true) (Put emptyStore [1] 100)
        [1] [2] [1] [3] 40 5 [[1], [2]] (by decide) (by decide)
        (by decide)).1,
    (ops_preserve_balance_sum (fun _ => true) (Put emptyStore [1] 100)
        [1] [2] [1] [3] 40 5 [[1], [2]] (by decide) (by decide)
        (by decide)).2.1 (by decide) (by decide),
    (ops_preserve_balance_sum (fun _ => true) (Put emptyStore [1] 100)
        [1] [2] [1] [3] 40 5 [[1], [2]] (by decide) (by decide)
        (by decide)).2.2 (by decide)⟩

/-- C3 counterexample: the claim "every stored allowance value is
non-negative after every operation, for any arguments including zero or
negative amounts" is false: starting from the empty store (no key present,
so every allowance reads as `0`), `approve([1], [2], -5)` with the witness
check passing writes `-5` under the allowance key `concat([1], [2])`, because
the balance-cap guard `from_balance >= amount` accepts any negative amount. -/
theorem approve_negative_amount_negative_allowance :
    Get emptyStore ([1] ++ [2]) = 0 ∧
    (DoApprove (fun _ => true) emptyStore [1] [2] (-5)).1 = true ∧
    Get (DoApprove (fun _ => true) emptyStore [1] [2] (-5)).2.1
      ([1] ++ [2]) = -5 := by
  decide

/-- C3 (amended): with fixed-length addresses (length `L > 0`, so that
allowance keys — concatenations of two addresses, length `2L` — never collide
with balance keys), if every allowance value in the store is non-negative,
then after `transfer` and `transferFrom` with any amount, and after `approve`
with a non-negative amount, every allowance value is still non-negative (and
the `allowance` query writes nothing).  The original claim fails for
`approve` with a negative amount. -/
theorem ops_preserve_allowance_nonneg (L : Nat) (wit : Addr → Bool)
    (s : Store) (f t o sp : Addr) (a b : Int)
    (hL : 0 < L) (hf : f.length = L) (ht : t.length = L)
    (ho : o.length = L) (hsp : sp.length = L)
    (hinv : ∀ k : List Nat, k.length = 2 * L → 0 ≤ Get s k) :
    (∀ k, k.length = 2 * L → 0 ≤ Get (DoTransfer wit s f t a).2.1 k) ∧
    (∀ k, k.length = 2 * L → 0 ≤ Get (DoTransferFrom wit s f t a).2.1 k) ∧
    (0 ≤ b → ∀ k, k.length = 2 * L →
      0 ≤ Get (DoApprove wit s o sp b).2.1 k) := by
  refine ⟨?_, ?_, ?_⟩
  · intro k hk
    have hkf : k ≠ f := fun he => by rw [he, hf] at hk; omega
    have hkt : k ≠ t := fun he => by rw [he, ht] at hk; omega
    by_cases h1 : a ≤ 0
    · rw [DoTransfer_amount_nonpos wit s f t a h1]
      exact hinv k hk
    by_cases h2 : wit f = false
    · rw [DoTransfer_no_witness wit s f t a h1 h2]
      exact hinv k hk
    by_cases he : f = t
    · rw [DoTransfer_self wit s f t a h1 h2 he]
      exact hinv k hk
    by_cases h3 : Get s f < a
    · rw [DoTransfer_insufficient wit s f t a h1 h2 he h3]
      exact hinv k hk
    rw [DoTransfer_success_eq wit s f t a h1 h2 he h3]
    by_cases h4 : Get s f = a
    · show 0 ≤ Get (Put (if Get s f = a then Delete s f
        else Put s f (Get s f - a)) t
          (Get (if Get s f = a then Delete s f
            else Put s f (Get s f - a)) t + a)) k
      rw [if_pos h4, Get_Put, if_neg hkt, Get_Delete, if_neg hkf]
      exact hinv k hk
    · show 0 ≤ Get (Put (if Get s f = a then Delete s f
        else Put s f (Get s f - a)) t
          (Get (if Get s f = a then Delete s f
            else Put s f (Get s f - a)) t + a)) k
      rw [if_neg h4, Get_Put, if_neg hkt, Get_Put, if_neg hkf]
      exact hinv k hk
  · intro k hk
    have hkf : k ≠ f := fun he => by rw [he, hf] at hk; omega
    have hkt : k ≠ t := fun he => by rw [he, ht] at hk; omega
    by_cases h1 : a ≤ 0
    · rw [DoTransferFrom_amount_nonpos wit s f t a h1]
      exact hinv k hk
    by_cases h2 : Get s (f ++ t) < a
    · rw [DoTransferFrom_insufficient_allowance wit s f t a h1 h2]
      exact hinv k hk
    by_cases h3 : Get s f < a
    · rw [DoTransferFrom_insufficient_balance wit s f t a h1 h2 h3]
      exact hinv k hk
    rw [DoTransferFrom_success_eq wit s f t a h1 h2 h3]
    show 0 ≤ Get (Put (Put (Put s (f ++ t) (Get s (f ++ t) - a)) t
      (Get s t + a)) f (Get s f - a)) k
    rw [Get_Put, if_neg hkf, Get_Put, if_neg hkt, Get_Put]
    by_cases hkey : k = f ++ t
    · rw [if_pos hkey]
      omega
    · rw [if_neg hkey]
      exact hinv k hk
  · intro hb k hk
    by_cases hw : wit o = false
    · rw [DoApprove_no_witness wit s o sp b hw]
      exact hinv k hk
    by_cases hbal : Get s o ≥ b
    · rw [DoApprove_success_eq wit s o sp b hw hbal]
      show 0 ≤ Get (Put s (o ++ sp) (Get s (o ++ sp) + b)) k
      rw [Get_Put]
      by_cases hkey : k = o ++ sp
      · rw [if_pos hkey]
        have hlen : (o ++ sp).length = 2 * L := by
          rw [List.length_append, ho, hsp]
          omega
        have := hinv (o ++ sp) hlen
        omega
      · rw [if_neg hkey]
        exact hinv k hk
    · rw [DoApprove_insufficient wit s o sp b hw hbal]
      exact hinv k hk

theorem ops_preserve_allowance_nonneg_witness :
    (0 < 1 ∧ ([1] : Addr).length = 1 ∧ ([2] : Addr).length = 1 ∧
      ([3] : Addr).length = 1 ∧ ([1, 2] : List Nat).length = 2 * 1 ∧
      0 ≤ Get emptyStore [1, 2]) ∧
    (0 ≤ Get (DoTransfer (fun _ => true) emptyStore [1] [2] 4).2.1 [1, 2] ∧
      0 ≤ Get (DoTransferFrom (fun _ => true) emptyStore [1] [2] 4).2.1
        [1, 2] ∧
      0 ≤ Get (DoApprove (fun _ => true) emptyStore [1] [3] 5).2.1 [1, 2]) :=
  ⟨⟨by decide, by decide, by decide, by decide, by decide, by decide⟩,
    (ops_preserve_allowance_nonneg 1 (fun _ => true) emptyStore [1] [2]
        [1] [3] 4 5 (by decide) (by decide) (by decide) (by decide)
        (by decide) (fun k _ => by rw [Get_emptyStore])).1 [1, 2] (by decide),
    (ops_preserve_allowance_nonneg 1 (fun _ => true) emptyStore [1] [2]
        [1] [3] 4 5 (by decide) (by decide) (by decide) (by decide)
        (by decide) (fun k _ => by rw [Get_emptyStore])).2.1 [1, 2]
      (by decide),
    (ops_preserve_allowance_nonneg 1 (fun _ => true) emptyStore [1] [2]
        [1] [3] 4 5 (by decide) (by decide) (by decide) (by decide)
        (by decide) (fun k _ => by rw [Get_emptyStore])).2.2 (by decide)
      [1, 2] (by decide)⟩

/-- C10: a delegated `transferFrom(from, to, amount)` with `from == to`,
positive amount, sufficient allowance under `concat(from, from)` and
sufficient balance succeeds, and the final balance of `from` is
`balance(from) - amount`: the later `Put` of `new_from_balance` to the shared
key overwrites the earlier `Put` of `new_to_balance`, so the transferred
amount is destroyed rather than conserved. -/
theorem transferFrom_self_destroys_value (wit : Addr → Bool) (s : Store)
    (f : Addr) (a : Int) (h0 : 0 < a)
    (hal : a ≤ Get s (f ++ f)) (hbal : a ≤ Get s f) :
    (DoTransferFrom wit s f f a).1 = true ∧
    Get (DoTransferFrom wit s f f a).2.1 f = Get s f - a := by
  have h1 : ¬ a ≤ 0 := not_le.mpr h0
  have h2 : ¬ Get s (f ++ f) < a := not_lt.mpr hal
  have h3 : ¬ Get s f < a := not_lt.mpr hbal
  simp [DoTransferFrom, h1, h2, h3, Get_Put]

theorem transferFrom_self_destroys_value_witness :
    (0 < (5:Int) ∧
      5 ≤ Get (Put (Put emptyStore [1] 5) ([1] ++ [1]) 5) ([1] ++ [1]) ∧
      5 ≤ Get (Put (Put emptyStore [1] 5) ([1] ++ [1]) 5) [1]) ∧
    ((DoTransferFrom (fun _ => true) (Put (Put emptyStore [1] 5) ([1] ++ [1]) 5)
        [1] [1] 5).1 = true ∧
      Get (DoTransferFrom (fun _ => true)
        (Put (Put emptyStore [1] 5) ([1] ++ [1]) 5) [1] [1] 5).2.1 [1] =
      Get (Put (Put emptyStore [1] 5) ([1] ++ [1]) 5) [1] - 5) :=
  ⟨⟨by decide, by decide, by decide⟩,
    transferFrom_self_destroys_value (fun _ => true)
      (Put (Put emptyStore [1] 5) ([1] ++ [1]) 5) [1] 5
      (by decide) (by decide) (by decide)⟩

/-- C5: `transferFrom` fails with no mutation whenever the stored allowance
under `concat(from, to)` is below `amount` (even when `from`'s balance would
suffice), and it never consults the witness oracle: its result does not
depend on the oracle at all. -/
theorem transferFrom_allowance_gate_and_no_witness_check (wit : Addr → Bool)
    (s : Store) (f t : Addr) (a : Int) (hlow : Get s (f ++ t) < a) :
    DoTransferFrom wit s f t a = (false, s, []) ∧
    ∀ (w1 w2 : Addr → Bool) (s2 : Store) (f2 t2 : Addr) (a2 : Int),
      DoTransferFrom w1 s2 f2 t2 a2 = DoTransferFrom w2 s2 f2 t2 a2 := by
  constructor
  · by_cases h1 : a ≤ 0
    · simp [DoTransferFrom, h1]
    · simp [DoTransferFrom, h1, hlow]
  · intro w1 w2 s2 f2 t2 a2
    rfl

theorem transferFrom_allowance_gate_witness :
    Get (Put emptyStore [1] 100) ([1] ++ [2]) < 30 ∧
    (DoTransferFrom (fun _ => true) (Put emptyStore [1] 100) [1] [2] 30 =
        (false, Put emptyStore [1] 100, []) ∧
      DoTransferFrom (fun _ => false)
          (Put (Put emptyStore [1] 100) ([1] ++ [2]) 50) [1] [2] 30 =
        DoTransferFrom (fun _ => true)
          (Put (Put emptyStore [1] 100) ([1] ++ [2]) 50) [1] [2] 30) :=
  ⟨by decide,
    (transferFrom_allowance_gate_and_no_witness_check (fun _ => true)
        (Put emptyStore [1] 100) [1] [2] 30 (by decide)).1,
    (transferFrom_allowance_gate_and_no_witness_check (fun _ => true)
        (Put emptyStore [1] 100) [1] [2] 30 (by decide)).2
      (fun _ => false) (fun _ => true)
      (Put (Put emptyStore [1] 100) ([1] ++ [2]) 50) [1] [2] 30⟩

/-- C4 counterexample: the claim "a transfer whose recipient-balance addition
would exceed the integer maximum of the arithmetic width fails or aborts" is
false: with `balance([1]) = 2^64` and `balance([2]) = 1`, the addition
`balance([2]) + 2^64` exceeds the 64-bit maximum `2^64 - 1`, yet
`transfer([1], [2], 2^64)` returns `true` — the source performs unchecked
arbitrary-precision arithmetic and never aborts.  (It also does not wrap:
the stored result is the exact value `2^64 + 1`.) -/
theorem transfer_beyond_uint64_succeeds :
    (2:Int) ^ 64 - 1 <
        Get (Put (Put emptyStore [1] (2 ^ 64)) [2] 1) [2] + 2 ^ 64 ∧
    (DoTransfer (fun _ => true) (Put (Put emptyStore [1] (2 ^ 64)) [2] 1)
        [1] [2] (2 ^ 64)).1 = true ∧
    Get (DoTransfer (fun _ => true) (Put (Put emptyStore [1] (2 ^ 64)) [2] 1)
        [1] [2] (2 ^ 64)).2.1 [2] = 2 ^ 64 + 1 := by
  decide

/-- C4 (amended): the transfer arithmetic is arbitrary precision and exact:
for any width `w`, a successful transfer whose recipient addition reaches or
exceeds `2 ^ w` stores exactly `balance(to) + amount` — it never wraps to a
small value — but it does not fail or abort on account of the overflowing
width.  The original claim's "fails or aborts" part is refuted by the
counterexample. -/
theorem transfer_never_wraps (w : Nat) (wit : Addr → Bool) (s : Store)
    (f t : Addr) (a : Int) (hne : f ≠ t)
    (hs : (DoTransfer wit s f t a).1 = true)
    (hover : 2 ^ w ≤ Get s t + a) :
    Get (DoTransfer wit s f t a).2.1 t = Get s t + a ∧
    2 ^ w ≤ Get (DoTransfer wit s f t a).2.1 t := by
  have h := Get_DoTransfer_to wit s f t a hne hs
  exact ⟨h, by rw [h]; exact hover⟩

theorem transfer_never_wraps_witness :
    (([1]:Addr) ≠ [2] ∧
      (DoTransfer (fun _ => true) (Put (Put emptyStore [1] (2 ^ 64)) [2] 1)
          [1] [2] (2 ^ 64)).1 = true ∧
      (2:Int) ^ 64 ≤
        Get (Put (Put emptyStore [1] (2 ^ 64)) [2] 1) [2] + 2 ^ 64) ∧
    (Get (DoTransfer (fun _ => true) (Put (Put emptyStore [1] (2 ^ 64)) [2] 1)
          [1] [2] (2 ^ 64)).2.1 [2] =
        Get (Put (Put emptyStore [1] (2 ^ 64)) [2] 1) [2] + 2 ^ 64 ∧
      (2:Int) ^ 64 ≤
        Get (DoTransfer (fun _ => true)
          (Put (Put emptyStore [1] (2 ^ 64)) [2] 1) [1] [2] (2 ^ 64)).2.1 [2]) :=
  ⟨⟨by decide, by decide, by decide⟩,
    transfer_never_wraps 64 (fun _ => true)
      (Put (Put emptyStore [1] (2 ^ 64)) [2] 1) [1] [2] (2 ^ 64)
      (by decide) (by decide) (by decide)⟩

/-- C6 counterexample: the claim "transfer returns false whenever
`balance(from) < amount` (among other failure conditions)" is false when
`from == to`: with the empty store, `balance([1]) = 0 < 1`, the caller
authorized, `transfer([1], [1], 1)` returns `true` — the self-transfer
short-circuit runs before the balance check. -/
theorem transfer_self_ignores_balance_check :
    Get emptyStore [1] < 1 ∧
    (DoTransfer (fun _ => true) emptyStore [1] [1] 1).1 = true := by
  decide

/-- C6 (amended): a transfer fails atomically — returns `false`, leaves the
store completely unchanged and emits no event — whenever `amount ≤ 0`, or
the caller is not authorized as `from`, or `from ≠ to` and
`balance(from) < amount`.  (The original claim omitted `from ≠ to` in the
insufficient-balance disjunct: a self-transfer succeeds without any balance
check.) -/
theorem transfer_failure_is_atomic (wit : Addr → Bool) (s : Store)
    (f t : Addr) (a : Int)
    (h : a ≤ 0 ∨ wit f = false ∨ (f ≠ t ∧ Get s f < a)) :
    DoTransfer wit s f t a = (false, s, []) := by
  by_cases h1 : a ≤ 0
  · exact DoTransfer_amount_nonpos wit s f t a h1
  by_cases h2 : wit f = false
  · exact DoTransfer_no_witness wit s f t a h1 h2
  rcases h with h | h | ⟨hne, hlt⟩
  · exact absurd h h1
  · exact absurd h h2
  · exact DoTransfer_insufficient wit s f t a h1 h2 hne hlt

theorem transfer_failure_is_atomic_witness :
    ((-1:Int) ≤ 0 ∨ (fun _ => true : Addr → Bool) [1] = false ∨
      (([1]:Addr) ≠ [2] ∧ Get emptyStore [1] < -1)) ∧
    DoTransfer (fun _ => true) emptyStore [1] [2] (-1) =
      (false, emptyStore, []) :=
  ⟨Or.inl (by decide),
    transfer_failure_is_atomic (fun _ => true) emptyStore [1] [2] (-1)
      (Or.inl (by decide))⟩

/-- C7 counterexample: the claim "every transfer with `from == to` succeeds"
is false: `transfer([1], [1], 0)` returns `false`, because the
`amount <= 0` check runs before the self-transfer short-circuit. -/
theorem transfer_self_zero_amount_fails :
    (DoTransfer (fun _ => true) emptyStore [1] [1] 0).1 = false := by
  decide

/-- C7 (amended): a transfer with `from == to`, a positive amount, and the
caller authorized as `from` succeeds, leaves the entire store unchanged and
emits no event.  (The original claim omitted the positive-amount and
authorization preconditions, which run before the self-transfer
short-circuit.) -/
theorem transfer_self_noop_success (wit : Addr → Bool) (s : Store) (f : Addr)
    (a : Int) (h0 : 0 < a) (hw : wit f = true) :
    DoTransfer wit s f f a = (true, s, []) := by
  have h1 : ¬ a ≤ 0 := not_le.mpr h0
  have h2 : ¬ wit f = false := by simp [hw]
  exact DoTransfer_self wit s f f a h1 h2 rfl

theorem transfer_self_noop_success_witness :
    (0 < (7:Int) ∧ (fun _ => true : Addr → Bool) [1] = true) ∧
    DoTransfer (fun _ => true) (Put emptyStore [1] 3) [1] [1] 7 =
      (true, Put emptyStore [1] 3, []) :=
  ⟨⟨by decide, by decide⟩,
    transfer_self_noop_success (fun _ => true) (Put emptyStore [1] 3) [1] 7
      (by decide) (by decide)⟩

/-- C8: for an authorized owner, `approve` returns `false` with no mutation
when `amount > balance(owner)` at call time, and otherwise writes
`allowance(owner, spender) + amount` (approvals accumulate); in particular
`approve(o, s, 5)` followed by `approve(o, s, 3)`, each with sufficient
balance at its call time, yields `allowance(o, s)` increased by `8`. -/
theorem approve_balance_capped_and_additive (wit : Addr → Bool) (s : Store)
    (o sp : Addr) (hw : wit o = true) :
    (∀ a : Int, Get s o < a → DoApprove wit s o sp a = (false, s, [])) ∧
    (∀ a : Int, a ≤ Get s o →
      DoApprove wit s o sp a =
        (true, Put s (o ++ sp) (Get s (o ++ sp) + a),
          [Event.approval o sp a])) ∧
    (5 ≤ Get s o → 3 ≤ Get (DoApprove wit s o sp 5).2.1 o →
      GetAllowance (DoApprove wit (DoApprove wit s o sp 5).2.1 o sp 3).2.1
          o sp =
        GetAllowance s o sp + 8) := by
  have h2 : ¬ wit o = false := by simp [hw]
  have hstore : ∀ (s' : Store) (a : Int), a ≤ Get s' o →
      (DoApprove wit s' o sp a).2.1 =
        Put s' (o ++ sp) (Get s' (o ++ sp) + a) := by
    intro s' a ha
    rw [DoApprove_success_eq wit s' o sp a h2 ha]
  refine ⟨fun a ha => DoApprove_insufficient wit s o sp a h2 (not_le.mpr ha),
    fun a ha => DoApprove_success_eq wit s o sp a h2 ha, ?_⟩
  intro h5 h3
  rw [hstore s 5 h5] at h3
  have e1 := hstore s 5 h5
  have e2 := hstore (Put s (o ++ sp) (Get s (o ++ sp) + 5)) 3 h3
  unfold GetAllowance
  rw [e1, e2]
  simp [Get_Put]
  ring

theorem approve_balance_capped_witness :
    ((fun _ => true : Addr → Bool) [1] = true ∧
      Get (Put emptyStore [1] 100) [1] < 200 ∧
      (5:Int) ≤ Get (Put emptyStore [1] 100) [1] ∧
      3 ≤ Get (DoApprove (fun _ => true) (Put emptyStore [1] 100)
        [1] [3] 5).2.1 [1]) ∧
    (DoApprove (fun _ => true) (Put emptyStore [1] 100) [1] [3] 200 =
        (false, Put emptyStore [1] 100, []) ∧
      DoApprove (fun _ => true) (Put emptyStore [1] 100) [1] [3] 5 =
        (true, Put (Put emptyStore [1] 100) ([1] ++ [3])
          (Get (Put emptyStore [1] 100) ([1] ++ [3]) + 5),
          [Event.approval [1] [3] 5]) ∧
      GetAllowance (DoApprove (fun _ => true)
          (DoApprove (fun _ => true) (Put emptyStore [1] 100)
            [1] [3] 5).2.1 [1] [3] 3).2.1 [1] [3] =
        GetAllowance (Put emptyStore [1] 100) [1] [3] + 8) :=
  ⟨⟨by decide, by decide, by decide, by decide⟩,
    (approve_balance_capped_and_additive (fun _ => true)
        (Put emptyStore [1] 100) [1] [3] (by decide)).1 200 (by decide),
    (approve_balance_capped_and_additive (fun _ => true)
        (Put emptyStore [1] 100) [1] [3] (by decide)).2.1 5 (by decide),
    (approve_balance_capped_and_additive (fun _ => true)
        (Put emptyStore [1] 100) [1] [3] (by decide)).2.2 (by decide)
      (by decide)⟩

/-- C9 counterexample: the claim "a successful direct transfer deletes the
from-balance key exactly when `balance(from) == amount`" is false for a
self-transfer: with `balance([1]) = 5`, `transfer([1], [1], 5)` succeeds and
`balance(from) == amount`, yet the key `[1]` is still present with value `5`
— the self-transfer short-circuit touches nothing. -/
theorem transfer_self_keeps_exhausted_key :
    (DoTransfer (fun _ => true) (Put emptyStore [1] 5) [1] [1] 5).1 = true ∧
    Get (Put emptyStore [1] 5) [1] = 5 ∧
    (DoTransfer (fun _ => true) (Put emptyStore [1] 5) [1] [1] 5).2.1 [1] =
      some 5 := by
  decide

/-- C9 (amended): storage-hygiene asymmetry of the two transfer paths: a
successful direct transfer with `from ≠ to` deletes the from-balance key
exactly when `balance(from) == amount` and otherwise writes
`balance(from) - amount`; a successful `transferFrom` leaves the from-balance,
to-balance and allowance keys all present (writing explicit values, even
zero), and `transferFrom` never deletes any key.  (The original claim
omitted `from ≠ to` on the direct-transfer side: a successful self-transfer
deletes nothing even when `balance(from) == amount`.) -/
theorem transfer_paths_storage_hygiene (wit : Addr → Bool) (s : Store)
    (f t : Addr) (a : Int) :
    (f ≠ t → (DoTransfer wit s f t a).1 = true →
      ((Get s f = a → (DoTransfer wit s f t a).2.1 f = none) ∧
        (Get s f ≠ a →
          (DoTransfer wit s f t a).2.1 f = some (Get s f - a)))) ∧
    ((DoTransferFrom wit s f t a).1 = true →
      ((DoTransferFrom wit s f t a).2.1 f ≠ none ∧
        (DoTransferFrom wit s f t a).2.1 t ≠ none ∧
        (DoTransferFrom wit s f t a).2.1 (f ++ t) ≠ none)) ∧
    (∀ k, s k ≠ none → (DoTransferFrom wit s f t a).2.1 k ≠ none) := by
  refine ⟨?_, ?_, ?_⟩
  · intro hne hs
    obtain ⟨h1, h2, h3⟩ := DoTransfer_true_elim wit s f t a hne hs
    rw [DoTransfer_success_eq wit s f t a h1 h2 hne h3]
    constructor
    · intro h4
      show Put (if Get s f = a then Delete s f else Put s f (Get s f - a)) t
        (Get (if Get s f = a then Delete s f else Put s f (Get s f - a)) t
          + a) f = none
      rw [if_pos h4, Put_apply, if_neg hne, Delete_apply, if_pos rfl]
    · intro h4
      show Put (if Get s f = a then Delete s f else Put s f (Get s f - a)) t
        (Get (if Get s f = a then Delete s f else Put s f (Get s f - a)) t
          + a) f = some (Get s f - a)
      rw [if_neg h4, Put_apply, if_neg hne, Put_apply, if_pos rfl]
  · intro hs
    obtain ⟨h1, h2, h3⟩ := DoTransferFrom_true_elim wit s f t a hs
    rw [DoTransferFrom_success_eq wit s f t a h1 h2 h3]
    refine ⟨?_, ?_, ?_⟩
    · show Put (Put (Put s (f ++ t) (Get s (f ++ t) - a)) t (Get s t + a)) f
        (Get s f - a) f ≠ none
      simp only [Put_apply]
      split_ifs <;> simp
    · show Put (Put (Put s (f ++ t) (Get s (f ++ t) - a)) t (Get s t + a)) f
        (Get s f - a) t ≠ none
      simp only [Put_apply]
      split_ifs <;> simp
    · show Put (Put (Put s (f ++ t) (Get s (f ++ t) - a)) t (Get s t + a)) f
        (Get s f - a) (f ++ t) ≠ none
      simp only [Put_apply]
      split_ifs <;> simp
  · intro k hk
    by_cases h1 : a ≤ 0
    · rw [DoTransferFrom_amount_nonpos wit s f t a h1]
      exact hk
    by_cases h2 : Get s (f ++ t) < a
    · rw [DoTransferFrom_insufficient_allowance wit s f t a h1 h2]
      exact hk
    by_cases h3 : Get s f < a
    · rw [DoTransferFrom_insufficient_balance wit s f t a h1 h2 h3]
      exact hk
    rw [DoTransferFrom_success_eq wit s f t a h1 h2 h3]
    show Put (Put (Put s (f ++ t) (Get s (f ++ t) - a)) t (Get s t + a)) f
      (Get s f - a) k ≠ none
    simp only [Put_apply]
    split_ifs <;> simp_all

theorem transfer_paths_storage_hygiene_witness :
    ((([1]:Addr) ≠ [2] ∧
      (DoTransfer (fun _ => true) (Put emptyStore [1] 5) [1] [2] 5).1 =
        true ∧
      Get (Put emptyStore [1] 5) [1] = 5 ∧
      (DoTransferFrom (fun _ => true)
        (Put (Put emptyStore [1] 5) ([1] ++ [2]) 5) [1] [2] 5).1 = true ∧
      Put (Put emptyStore [1] 5) ([1] ++ [2]) 5 ([1] ++ [2]) ≠ none) ∧
    ((DoTransfer (fun _ => true) (Put emptyStore [1] 5) [1] [2] 5).2.1 [1] =
        none ∧
      (DoTransferFrom (fun _ => true)
        (Put (Put emptyStore [1] 5) ([1] ++ [2]) 5) [1] [2] 5).2.1 [1] ≠
        none ∧
      (DoTransferFrom (fun _ => true)
        (Put (Put emptyStore [1] 5) ([1] ++ [2]) 5) [1] [2] 5).2.1 [2] ≠
        none ∧
      (DoTransferFrom (fun _ => true)
        (Put (Put emptyStore [1] 5) ([1] ++ [2]) 5) [1] [2] 5).2.1
          ([1] ++ [2]) ≠ none)) :=
  ⟨⟨by decide, by decide, by decide, by decide, by decide⟩,
    ((transfer_paths_storage_hygiene (fun _ => true) (Put emptyStore [1] 5)
        [1] [2] 5).1 (by decide) (by decide)).1 (by decide),
    ((transfer_paths_storage_hygiene (fun _ => true)
        (Put (Put emptyStore [1] 5) ([1] ++ [2]) 5) [1] [2] 5).2.1
      (by decide)).1,
    ((transfer_paths_storage_hygiene (fun _ => true)
        (Put (Put emptyStore [1] 5) ([1] ++ [2]) 5) [1] [2] 5).2.1
      (by decide)).2.1,
    (transfer_paths_storage_hygiene (fun _ => true)
        (Put (Put emptyStore [1] 5) ([1] ++ [2]) 5) [1] [2] 5).2.2
      ([1] ++ [2]) (by decide)⟩

end NEP5
